import Mathlib

/-!
# Verification of the DCPU-16 emulator core

A shallow embedding of the emulator's core CPU (`dcpu` package: `Word`,
`Region`, `State`, `decodeOpcode`, `wordCount`, `translateOperand`,
`Step`), with theorems checking the natural-language specification
against it.

Go's `uint16`/`uint32` arithmetic is modelled on `Nat` with explicit
reductions modulo `2^16` / `2^32`.  Go runtime panics (out-of-bounds
operand/opcode, integer division by zero) are modelled by an explicit
`panic` result carrying the panic message; returning a `*ProtectionError`
is modelled by a `fault` result carrying the error value together with
the machine state as mutated so far (Go mutates the state in place, so
an error return does not undo earlier register updates).
-/

namespace DCPU

/- `type Word uint16`: machine words are modelled as `Nat`, kept below
`2^16 = 65536` by construction; wrap-around points reduce modulo `65536`
explicitly, and Go's 32-bit intermediates reduce modulo `4294967296`. -/

/-- `type Region struct { Start, Length Word }`: a half-open address range. -/
structure Region where
  Start : Nat
  Length : Nat
deriving DecidableEq

/-- `Region.Contains`: `address >= r.Start && address < r.Start+r.Length`,
where the sum wraps modulo 2^16 (Go `Word` addition). -/
def Region.Contains (r : Region) (address : Nat) : Bool :=
  decide (r.Start ≤ address) && decide (address < (r.Start + r.Length) % 65536)

/-- `type ProtectionError struct { Address, Opcode, OperandA, OperandB Word }`. -/
structure ProtectionError where
  Address : Nat
  Opcode : Nat
  OperandA : Nat
  OperandB : Nat
deriving DecidableEq

/-- The eleven named registers of `Registers`. -/
inductive Reg where
  | A | B | C | X | Y | Z | I | J | PC | SP | O
deriving DecidableEq

/-- `type State struct { Registers; Ram [0x10000]Word; Protected []Region }`.
The RAM array is modelled as a total function on addresses. -/
structure State where
  A : Nat
  B : Nat
  C : Nat
  X : Nat
  Y : Nat
  Z : Nat
  I : Nat
  J : Nat
  PC : Nat
  SP : Nat
  O : Nat
  Ram : Nat → Nat
  Protected : List Region

/-- Read a named register. -/
def getReg (s : State) : Reg → Nat
  | .A => s.A
  | .B => s.B
  | .C => s.C
  | .X => s.X
  | .Y => s.Y
  | .Z => s.Z
  | .I => s.I
  | .J => s.J
  | .PC => s.PC
  | .SP => s.SP
  | .O => s.O

/-- Write a named register. -/
def setReg (s : State) (r : Reg) (v : Nat) : State :=
  match r with
  | .A => { s with A := v }
  | .B => { s with B := v }
  | .C => { s with C := v }
  | .X => { s with X := v }
  | .Y => { s with Y := v }
  | .Z => { s with Z := v }
  | .I => { s with I := v }
  | .J => { s with J := v }
  | .PC => { s with PC := v }
  | .SP => { s with SP := v }
  | .O => { s with O := v }

/-- The `assignable *Word` pointer of `translateOperand`, as a tagged
storage location: either a named register or a backing-RAM cell.  (In Go
the distinction is recovered by pointer comparison against the RAM
array; here the tag records it directly.) -/
inductive Lval where
  | reg : Reg → Lval
  | ram : Nat → Lval
deriving DecidableEq

/-- `*assignable = val`: store through a captured location. -/
def writeLval (s : State) (l : Lval) (v : Nat) : State :=
  match l with
  | .reg r => setReg s r v
  | .ram i => { s with Ram := Function.update s.Ram i v }

/-- `*assignable`: read through a captured location. -/
def readLval (s : State) : Lval → Nat
  | .reg r => getReg s r
  | .ram i => s.Ram i

/-- `decodeOpcode`: split an instruction word into
`oooo = opcode & 0xF`, `aaaaaa = (opcode >> 4) & 0x3F`,
`bbbbbb = (opcode >> 10) & 0x3F`. -/
def decodeOpcode (opcode : Nat) : Nat × Nat × Nat :=
  (opcode % 16, opcode / 16 % 64, opcode / 1024 % 64)

/-- `wordCount`, exactly as the Go source computes it.  The Go `switch`
blocks have empty bodies on the `a >= 16 && a <= 23` and `a == 30` cases
(Go `switch` does not fall through), so only an operand code of 31
increments the count. -/
def wordCount (opcode : Nat) : Nat :=
  let a := (decodeOpcode opcode).2.1
  let b := (decodeOpcode opcode).2.2
  let count : Nat := 1
  let count := if 16 ≤ a ∧ a ≤ 23 then count
    else if a = 30 then count
    else if a = 31 then count + 1
    else count
  let count := if 16 ≤ b ∧ b ≤ 23 then count
    else if b = 30 then count
    else if b = 31 then count + 1
    else count
  count

/-- Modelled from the spec: the word count the specification describes,
`1` plus one extra word for each operand whose code lies in 16–23, 30,
or 31.  Stated for comparison with the source's `wordCount`. -/
def specWordCount (opcode : Nat) : Nat :=
  let a := (decodeOpcode opcode).2.1
  let b := (decodeOpcode opcode).2.2
  1 + (if (16 ≤ a ∧ a ≤ 23) ∨ a = 30 ∨ a = 31 then 1 else 0)
    + (if (16 ≤ b ∧ b ≤ 23) ∨ b = 30 ∨ b = 31 then 1 else 0)

/-- `translateOperand`: resolve one operand code to its value and
(optionally) its assignable location, mutating `PC`/`SP` as in the
source.  The Go `panic("Out of bounds operand")` for codes ≥ 64 is the
`error` result.  As in Go, the location's address is captured before the
`PC`/`SP` mutation, and the value is read through the captured location
afterwards. -/
def translateOperand (s : State) (op : Nat) :
    Except String (Nat × Option Lval × State) :=
  match op with
  | 0 => .ok (s.A, some (.reg .A), s)
  | 1 => .ok (s.B, some (.reg .B), s)
  | 2 => .ok (s.C, some (.reg .C), s)
  | 3 => .ok (s.X, some (.reg .X), s)
  | 4 => .ok (s.Y, some (.reg .Y), s)
  | 5 => .ok (s.Z, some (.reg .Z), s)
  | 6 => .ok (s.I, some (.reg .I), s)
  | 7 => .ok (s.J, some (.reg .J), s)
  | 8 => .ok (s.Ram s.A, some (.ram s.A), s)
  | 9 => .ok (s.Ram s.B, some (.ram s.B), s)
  | 10 => .ok (s.Ram s.C, some (.ram s.C), s)
  | 11 => .ok (s.Ram s.X, some (.ram s.X), s)
  | 12 => .ok (s.Ram s.Y, some (.ram s.Y), s)
  | 13 => .ok (s.Ram s.Z, some (.ram s.Z), s)
  | 14 => .ok (s.Ram s.I, some (.ram s.I), s)
  | 15 => .ok (s.Ram s.J, some (.ram s.J), s)
  | 16 => let addr := (s.Ram s.PC + s.A) % 65536
          .ok (s.Ram addr, some (.ram addr), { s with PC := (s.PC + 1) % 65536 })
  | 17 => let addr := (s.Ram s.PC + s.B) % 65536
          .ok (s.Ram addr, some (.ram addr), { s with PC := (s.PC + 1) % 65536 })
  | 18 => let addr := (s.Ram s.PC + s.C) % 65536
          .ok (s.Ram addr, some (.ram addr), { s with PC := (s.PC + 1) % 65536 })
  | 19 => let addr := (s.Ram s.PC + s.X) % 65536
          .ok (s.Ram addr, some (.ram addr), { s with PC := (s.PC + 1) % 65536 })
  | 20 => let addr := (s.Ram s.PC + s.Y) % 65536
          .ok (s.Ram addr, some (.ram addr), { s with PC := (s.PC + 1) % 65536 })
  | 21 => let addr := (s.Ram s.PC + s.Z) % 65536
          .ok (s.Ram addr, some (.ram addr), { s with PC := (s.PC + 1) % 65536 })
  | 22 => let addr := (s.Ram s.PC + s.I) % 65536
          .ok (s.Ram addr, some (.ram addr), { s with PC := (s.PC + 1) % 65536 })
  | 23 => let addr := (s.Ram s.PC + s.J) % 65536
          .ok (s.Ram addr, some (.ram addr), { s with PC := (s.PC + 1) % 65536 })
  | 24 => let addr := s.SP
          .ok (s.Ram addr, some (.ram addr), { s with SP := (s.SP + 1) % 65536 })
  | 25 => .ok (s.Ram s.SP, some (.ram s.SP), s)
  | 26 => let addr := (s.SP + 65535) % 65536
          .ok (s.Ram addr, some (.ram addr), { s with SP := addr })
  | 27 => .ok (s.SP, some (.reg .SP), s)
  | 28 => .ok (s.PC, some (.reg .PC), s)
  | 29 => .ok (s.O, some (.reg .O), s)
  | 30 => let addr := s.Ram s.PC
          .ok (s.Ram addr, some (.ram addr), { s with PC := (s.PC + 1) % 65536 })
  | 31 => .ok (s.Ram s.PC, none, { s with PC := (s.PC + 1) % 65536 })
  | op => if op ≥ 64 then .error "Out of bounds operand"
          else .ok (op - 32, none, s)

/-- The protection scan of `Step`'s store phase: walk the `Protected`
list; report a hit on `Contains`, and `break` (report no hit) as soon as
a region's `Start` exceeds the index. -/
def protCheck : List Region → Nat → Bool
  | [], _ => false
  | r :: rest, index =>
    if r.Contains index then true
    else if index < r.Start then false
    else protCheck rest index

/-- The `execute` phase of `Step`: the 16-way opcode dispatch, producing
the computed `val` and the state (with `O` and, for conditionals, `PC`
updated).  Go's `var val Word` makes `val = 0` for opcodes that do not
assign it.  `a / b` and `a % b` with `b = 0` are Go runtime panics.
The `default` branch is `panic("Out of bounds opcode")`. -/
def execute (ins a b : Nat) (s : State) : Except String (Nat × State) :=
  match ins with
  | 0 => .ok (0, s)
  | 1 => .ok (b, s)
  | 2 => let result := (a + b) % 4294967296
         .ok (result % 65536, { s with O := result / 65536 % 65536 })
  | 3 => let result := (4294967296 + a - b) % 4294967296
         .ok (result % 65536, { s with O := result / 65536 % 65536 })
  | 4 => let result := a * b % 4294967296
         .ok (result % 65536, { s with O := result / 65536 % 65536 })
  | 5 => if b = 0 then .error "runtime error: integer divide by zero"
         else .ok (a / b, { s with O := a % b })
  | 6 => if b = 0 then .error "runtime error: integer divide by zero"
         else .ok (a % b, s)
  | 7 => let result := a * 2 ^ b % 4294967296
         .ok (result % 65536, { s with O := result / 65536 % 65536 })
  | 8 => .ok (a / 2 ^ b, s)
  | 9 => .ok (a &&& b, s)
  | 10 => .ok (a ||| b, s)
  | 11 => .ok (a ^^^ b, s)
  | 12 => .ok (0, if a ≠ b then { s with PC := (s.PC + wordCount (s.Ram s.PC)) % 65536 } else s)
  | 13 => .ok (0, if a = b then { s with PC := (s.PC + wordCount (s.Ram s.PC)) % 65536 } else s)
  | 14 => .ok (0, if a ≤ b then { s with PC := (s.PC + wordCount (s.Ram s.PC)) % 65536 } else s)
  | 15 => .ok (0, if a &&& b = 0 then { s with PC := (s.PC + wordCount (s.Ram s.PC)) % 65536 } else s)
  | _ => .error "Out of bounds opcode"

/-- The result of one `Step`: normal completion, a returned
`*ProtectionError` (with the state as mutated so far), or a Go runtime
panic (carrying the panic message). -/
inductive StepResult where
  | ok : State → StepResult
  | fault : ProtectionError → State → StepResult
  | panic : String → StepResult

/-- `Step`: one fetch / decode / translate / execute / store cycle,
mirroring the Go source.  The store runs only for `1 ≤ ins ≤ 11` with a
non-nil assignable; a RAM-backed target inside a protected region
(as found by the source's early-exit scan) returns a `ProtectionError`
instead of storing. -/
def Step (s0 : State) : StepResult :=
  let opcode := s0.Ram s0.PC
  let s1 : State := { s0 with PC := (s0.PC + 1) % 65536 }
  let ins := (decodeOpcode opcode).1
  match translateOperand s1 (decodeOpcode opcode).2.1 with
  | .error msg => .panic msg
  | .ok (a, assignable, s2) =>
    match translateOperand s2 (decodeOpcode opcode).2.2 with
    | .error msg => .panic msg
    | .ok (b, _, s3) =>
      match execute ins a b s3 with
      | .error msg => .panic msg
      | .ok (val, s4) =>
        if 1 ≤ ins ∧ ins ≤ 11 then
          match assignable with
          | some (.ram index) =>
            if protCheck s4.Protected index then
              .fault { Address := index, Opcode := opcode,
                       OperandA := a, OperandB := b } s4
            else .ok (writeLval s4 (.ram index) val)
          | some (.reg r) => .ok (writeLval s4 (.reg r) val)
          | none => .ok s4
        else .ok s4

/-- Run `Step` repeatedly (as the machine's execution loop does),
stopping at the first fault or panic. -/
def steps : Nat → State → StepResult
  | 0, s => .ok s
  | n + 1, s =>
    match Step s with
    | .ok s' => steps n s'
    | r => r

/-- The machine state at zero with a program loaded at address 0
(`LoadProgram(words, 0)` on a fresh `State`). -/
def initialState (prog : List Nat) (prot : List Region) : State :=
  { A := 0, B := 0, C := 0, X := 0, Y := 0, Z := 0, I := 0, J := 0,
    PC := 0, SP := 0, O := 0,
    Ram := fun i => prog.getD i 0,
    Protected := prot }

/-- Observe the `PC` of a step result, when a state is available. -/
def pcOf : StepResult → Option Nat
  | .ok s => some s.PC
  | .fault _ s => some s.PC
  | .panic _ => none

/-- Observe the `SP` of a step result. -/
def spOf : StepResult → Option Nat
  | .ok s => some s.SP
  | .fault _ s => some s.SP
  | .panic _ => none

/-- Observe the `O` register of a step result. -/
def oOf : StepResult → Option Nat
  | .ok s => some s.O
  | .fault _ s => some s.O
  | .panic _ => none

/-- Observe register `A` of a step result. -/
def aOf : StepResult → Option Nat
  | .ok s => some s.A
  | .fault _ s => some s.A
  | .panic _ => none

/-- Observe one RAM cell of a step result. -/
def ramAt : StepResult → Nat → Option Nat
  | .ok s, i => some (s.Ram i)
  | .fault _ s, i => some (s.Ram i)
  | .panic _, _ => none

end DCPU

namespace DCPU

set_option maxHeartbeats 1000000
set_option maxRecDepth 8192

/-! ## Invariant lemmas about `translateOperand` and `execute` -/

/-- Operand translation never fails for decoded operand codes (< 64);
in particular it never consults the protected-region list, so reads
always succeed. -/
theorem translate_total (s : State) (op : Nat) (hop : op < 64) :
    ∃ v l s', translateOperand s op = .ok (v, l, s') := by
  unfold translateOperand
  interval_cases op <;> simp

/-- Operand translation touches only `PC` and `SP`: every other register,
the RAM and the protected list are unchanged. -/
theorem translate_frame {s : State} {op v : Nat} {l : Option Lval} {s' : State}
    (h : translateOperand s op = .ok (v, l, s')) :
    s'.A = s.A ∧ s'.B = s.B ∧ s'.C = s.C ∧ s'.X = s.X ∧ s'.Y = s.Y ∧
    s'.Z = s.Z ∧ s'.I = s.I ∧ s'.J = s.J ∧ s'.O = s.O ∧
    s'.Ram = s.Ram ∧ s'.Protected = s.Protected := by
  unfold translateOperand at h
  split at h <;> try (cases h; simp)
  split at h
  · cases h
  · cases h; simp

/-- The `PC` effect of translating one operand: codes 16–23, 30 and 31
advance `PC` by one word; all other codes leave it unchanged. -/
theorem translate_pc {s : State} {op v : Nat} {l : Option Lval} {s' : State}
    (h : translateOperand s op = .ok (v, l, s')) :
    s'.PC = (if (16 ≤ op ∧ op ≤ 23) ∨ op = 30 ∨ op = 31
             then (s.PC + 1) % 65536 else s.PC) := by
  unfold translateOperand at h
  split at h <;> try (cases h; simp)
  split at h
  · cases h
  · cases h
    simp only [imp_false] at *
    have hneg : ¬((16 ≤ op ∧ op ≤ 23) ∨ op = 30 ∨ op = 31) := by
      rintro (⟨h1, h2⟩ | h3 | h4) <;> omega
    rw [if_neg hneg]

/-- The `SP` effect of translating one operand: POP (24) increments,
PUSH (26) decrements (mod 2^16), everything else leaves `SP` alone. -/
theorem translate_sp {s : State} {op v : Nat} {l : Option Lval} {s' : State}
    (h : translateOperand s op = .ok (v, l, s')) :
    s'.SP = (if op = 24 then (s.SP + 1) % 65536
             else if op = 26 then (s.SP + 65535) % 65536 else s.SP) := by
  unfold translateOperand at h
  split at h <;> try (cases h; simp)
  split at h
  · cases h
  · cases h
    simp only [imp_false] at *
    have h24 : ¬(op = 24) := by omega
    have h26 : ¬(op = 26) := by omega
    rw [if_neg h24, if_neg h26]

/-- Only operand code 29 yields the `O` register as assignable target. -/
theorem translate_lval_not_O {s : State} {op v : Nat} {l : Option Lval} {s' : State}
    (h : translateOperand s op = .ok (v, l, s')) (hop : op ≠ 29) :
    l ≠ some (.reg .O) := by
  unfold translateOperand at h
  split at h <;> try (cases h; simp)
  · exact absurd rfl hop
  · split at h
    · cases h
    · cases h; simp

/-- The execute phase leaves RAM, the protected list, `SP` and the
general-purpose registers unchanged; `PC` is unchanged for non-conditional
opcodes, and `O` is unchanged for SET, MOD, SHR, AND, BOR, XOR and the
conditionals. -/
theorem execute_inv {ins a b : Nat} {s : State} {v : Nat} {s' : State}
    (h : execute ins a b s = .ok (v, s')) :
    s'.Ram = s.Ram ∧ s'.Protected = s.Protected ∧ s'.SP = s.SP ∧
    s'.A = s.A ∧ s'.B = s.B ∧ s'.C = s.C ∧ s'.X = s.X ∧ s'.Y = s.Y ∧
    s'.Z = s.Z ∧ s'.I = s.I ∧ s'.J = s.J ∧
    (ins ≤ 11 → s'.PC = s.PC) ∧
    ((ins = 1 ∨ ins = 6 ∨ (8 ≤ ins ∧ ins ≤ 15)) → s'.O = s.O) := by
  unfold execute at h
  split at h <;>
    (try split at h) <;>
    cases h <;>
    refine ⟨?_, ?_, ?_, ?_, ?_, ?_, ?_, ?_, ?_, ?_, ?_, ?_, ?_⟩ <;>
    (try intro hx) <;>
    first
      | rfl
      | omega

/-- The early-exit protection scan agrees with region membership as long
as the protected list is sorted by `Start` (the spec's stated invariant
for `State.Protected`). -/
theorem protCheck_of_mem {l : List Region} {addr : Nat}
    (hsorted : l.Pairwise (fun r1 r2 => r1.Start ≤ r2.Start))
    (hmem : ∃ r ∈ l, r.Contains addr = true) :
    protCheck l addr = true := by
  induction l with
  | nil => obtain ⟨r, hr, _⟩ := hmem; cases hr
  | cons r rest ih =>
    obtain ⟨r0, hr0, hc0⟩ := hmem
    rw [List.pairwise_cons] at hsorted
    unfold protCheck
    by_cases hrc : r.Contains addr = true
    · rw [if_pos hrc]
    · rw [if_neg hrc]
      cases hr0 with
      | head => exact absurd hc0 hrc
      | tail _ htail =>
        have hstart : r.Start ≤ r0.Start := hsorted.1 r0 htail
        have hr0start : r0.Start ≤ addr := by
          have := hc0
          unfold Region.Contains at this
          simp only [Bool.and_eq_true, decide_eq_true_eq] at this
          exact this.1
        have : ¬ (addr < r.Start) := by omega
        rw [if_neg this]
        exact ih hsorted.2 ⟨r0, htail, hc0⟩

end DCPU

namespace DCPU

/-- The store phase of `Step`, for reasoning about `Step` compositionally. -/
def storePhase (opcode va vb val : Nat) (la : Option Lval) (s4 : State)
    (ins : Nat) : StepResult :=
  if 1 ≤ ins ∧ ins ≤ 11 then
    match la with
    | some (.ram index) =>
      if protCheck s4.Protected index then .fault ⟨index, opcode, va, vb⟩ s4
      else .ok (writeLval s4 (.ram index) val)
    | some (.reg r) => .ok (writeLval s4 (.reg r) val)
    | none => .ok s4
  else .ok s4

/-- `Step` is fetch, the two operand translations, execute, then the
store phase, when translations and execute succeed. -/
theorem Step_unfold {s : State} {va vb : Nat} {la lb : Option Lval}
    {s2 s3 s4 : State} {val : Nat}
    (hta : translateOperand { s with PC := (s.PC + 1) % 65536 }
             (decodeOpcode (s.Ram s.PC)).2.1 = .ok (va, la, s2))
    (htb : translateOperand s2 (decodeOpcode (s.Ram s.PC)).2.2 = .ok (vb, lb, s3))
    (hex : execute (decodeOpcode (s.Ram s.PC)).1 va vb s3 = .ok (val, s4)) :
    Step s = storePhase (s.Ram s.PC) va vb val la s4 (decodeOpcode (s.Ram s.PC)).1 := by
  simp only [Step, hta, htb, hex, storePhase]

/-- When the execute phase panics (division by zero), `Step` panics with
the same message and the store phase never runs. -/
theorem Step_unfold_panic {s : State} {va vb : Nat} {la lb : Option Lval}
    {s2 s3 : State} {msg : String}
    (hta : translateOperand { s with PC := (s.PC + 1) % 65536 }
             (decodeOpcode (s.Ram s.PC)).2.1 = .ok (va, la, s2))
    (htb : translateOperand s2 (decodeOpcode (s.Ram s.PC)).2.2 = .ok (vb, lb, s3))
    (hex : execute (decodeOpcode (s.Ram s.PC)).1 va vb s3 = .error msg) :
    Step s = .panic msg := by
  simp only [Step, hta, htb, hex]

/-- Decoding always yields an opcode below 16 and operand codes below 64. -/
theorem decode_bounds (w : Nat) :
    (decodeOpcode w).1 < 16 ∧ (decodeOpcode w).2.1 < 64 ∧ (decodeOpcode w).2.2 < 64 := by
  unfold decodeOpcode
  refine ⟨?_, ?_, ?_⟩ <;> simp [Nat.mod_lt]

/-- Storing through a location other than register `O` leaves `O` alone. -/
theorem writeLval_O {s : State} {l : Lval} {v : Nat} (h : l ≠ .reg .O) :
    (writeLval s l v).O = s.O := by
  cases l with
  | ram i => rfl
  | reg r => cases r <;> first | rfl | exact absurd rfl h

/-- Storing through a RAM location changes no register. -/
theorem writeLval_ram_regs (s : State) (i v : Nat) :
    (writeLval s (.ram i) v).PC = s.PC ∧ (writeLval s (.ram i) v).SP = s.SP ∧
    (writeLval s (.ram i) v).O = s.O ∧ (writeLval s (.ram i) v).A = s.A := by
  exact ⟨rfl, rfl, rfl, rfl⟩

end DCPU

namespace DCPU

/-- The number of extra instruction words one use of an operand code
consumes during translation (codes 16-23, 30, 31 read one next word). -/
def pcExtra (op : Nat) : Nat :=
  if (16 ≤ op ∧ op ≤ 23) ∨ op = 30 ∨ op = 31 then 1 else 0

/-- The SP effect of one operand translation: POP (24) increments,
PUSH (26) decrements modulo 2^16. -/
def spEffect (op sp : Nat) : Nat :=
  if op = 24 then (sp + 1) % 65536
  else if op = 26 then (sp + 65535) % 65536 else sp

/-- **C10**: when `Step` returns a ProtectionFault, the machine state is
not rolled back: the fetch `PC` increment, the extra-word `PC` advances
and the `PC`/`SP` mutations from the operand translations all persist in
the returned state; RAM (in particular the protected word), the
protected list and the general-purpose registers are exactly as before
the instruction, the store having been suppressed. -/
theorem C10_fault_no_rollback (s : State) (e : ProtectionError) (s' : State)
    (h : Step s = .fault e s') :
    s'.Ram = s.Ram ∧ s'.Protected = s.Protected ∧
    s'.PC = (s.PC + 1 + pcExtra (decodeOpcode (s.Ram s.PC)).2.1
                      + pcExtra (decodeOpcode (s.Ram s.PC)).2.2) % 65536 ∧
    s'.SP = spEffect (decodeOpcode (s.Ram s.PC)).2.2
              (spEffect (decodeOpcode (s.Ram s.PC)).2.1 s.SP) ∧
    s'.A = s.A ∧ s'.B = s.B ∧ s'.C = s.C ∧ s'.X = s.X ∧
    s'.Y = s.Y ∧ s'.Z = s.Z ∧ s'.I = s.I ∧ s'.J = s.J := by
  obtain ⟨hop, hba, hbb⟩ := decode_bounds (s.Ram s.PC)
  obtain ⟨va, la, s2, hta⟩ :=
    translate_total { s with PC := (s.PC + 1) % 65536 } _ hba
  obtain ⟨vb, lb, s3, htb⟩ := translate_total s2 _ hbb
  cases hex : execute (decodeOpcode (s.Ram s.PC)).1 va vb s3 with
  | error msg =>
    rw [Step_unfold_panic hta htb hex] at h
    cases h
  | ok res =>
    obtain ⟨val, s4⟩ := res
    rw [Step_unfold hta htb hex] at h
    unfold storePhase at h
    split at h
    case isFalse => cases h
    case isTrue hins =>
      split at h
      case h_2 => cases h
      case h_3 => cases h
      case h_1 index =>
        split at h
        case isFalse => cases h
        case isTrue hprot =>
        cases h
        obtain ⟨fA2, fB2, fC2, fX2, fY2, fZ2, fI2, fJ2, fO2, fR2, fP2⟩ := translate_frame hta
        obtain ⟨fA3, fB3, fC3, fX3, fY3, fZ3, fI3, fJ3, fO3, fR3, fP3⟩ := translate_frame htb
        obtain ⟨iR, iP, iSP, iA, iB, iC, iX, iY, iZ, iI, iJ, iPC, iO⟩ := execute_inv hex
        have hpc2 := translate_pc hta
        have hpc3 := translate_pc htb
        have hsp2 := translate_sp hta
        have hsp3 := translate_sp htb
        refine ⟨?_, ?_, ?_, ?_, ?_, ?_, ?_, ?_, ?_, ?_, ?_, ?_⟩
        · rw [iR, fR3, fR2]
        · rw [iP, fP3, fP2]
        · rw [iPC hins.2, hpc3, hpc2]
          show _ = (s.PC + 1 + pcExtra _ + pcExtra _) % 65536
          unfold pcExtra
          by_cases hca : (16 ≤ (decodeOpcode (s.Ram s.PC)).2.1 ∧ (decodeOpcode (s.Ram s.PC)).2.1 ≤ 23) ∨
              (decodeOpcode (s.Ram s.PC)).2.1 = 30 ∨ (decodeOpcode (s.Ram s.PC)).2.1 = 31 <;>
            by_cases hcb : (16 ≤ (decodeOpcode (s.Ram s.PC)).2.2 ∧ (decodeOpcode (s.Ram s.PC)).2.2 ≤ 23) ∨
              (decodeOpcode (s.Ram s.PC)).2.2 = 30 ∨ (decodeOpcode (s.Ram s.PC)).2.2 = 31 <;>
            simp only [hca, hcb, if_pos, if_neg, ite_true, ite_false, if_true, if_false] <;>
            omega
        · rw [iSP, hsp3, hsp2]
          show _ = spEffect _ (spEffect _ s.SP)
          unfold spEffect
          rfl
        · rw [iA, fA3, fA2]
        · rw [iB, fB3, fB2]
        · rw [iC, fC3, fC2]
        · rw [iX, fX3, fX2]
        · rw [iY, fY3, fY2]
        · rw [iZ, fZ3, fZ2]
        · rw [iI, fI3, fI2]
        · rw [iJ, fJ3, fJ2]

end DCPU

namespace DCPU

/-- The proposition that a step result's `O` register equals `o`
(vacuous for a panic, which carries no state). -/
def OPreserved : StepResult → Nat → Prop
  | .ok s', o => s'.O = o
  | .fault _ s', o => s'.O = o
  | .panic _, _ => True

/-- The store phase preserves `O` whenever the target is not `O` itself. -/
theorem storePhase_O {la : Option Lval} (hla : la ≠ some (.reg .O))
    (opcode va vb val ins : Nat) (s4 : State) (o : Nat) (ho : s4.O = o) :
    OPreserved (storePhase opcode va vb val la s4 ins) o := by
  rcases la with _ | l
  · unfold storePhase
    split
    · exact ho
    · exact ho
  · cases l with
    | reg r =>
      have hr : (Lval.reg r : Lval) ≠ .reg .O := by
        intro hcon
        exact hla (by rw [hcon])
      unfold storePhase
      split
      · show (writeLval s4 (.reg r) val).O = o
        rw [writeLval_O hr]
        exact ho
      · exact ho
    | ram idx =>
      unfold storePhase
      split
      · show OPreserved (if protCheck s4.Protected idx then
              StepResult.fault ⟨idx, opcode, va, vb⟩ s4
            else StepResult.ok (writeLval s4 (.ram idx) val)) o
        split
        · exact ho
        · exact ho
      · exact ho

/-- **C8 (amended)**: executing an instruction whose opcode is SET (1),
MOD (6), SHR (8), AND (9), BOR (10), XOR (11) or a conditional (12-15)
leaves `O` untouched, provided (for the storing opcodes 1-11) operand
`a` is not code 29, i.e. the store target is not the `O` register
itself. -/
theorem C8_O_untouched (s : State)
    (hins : (decodeOpcode (s.Ram s.PC)).1 = 1 ∨ (decodeOpcode (s.Ram s.PC)).1 = 6 ∨
            (8 ≤ (decodeOpcode (s.Ram s.PC)).1 ∧ (decodeOpcode (s.Ram s.PC)).1 ≤ 15))
    (ha29 : (decodeOpcode (s.Ram s.PC)).1 ≤ 11 → (decodeOpcode (s.Ram s.PC)).2.1 ≠ 29) :
    OPreserved (Step s) s.O := by
  obtain ⟨hop, hba, hbb⟩ := decode_bounds (s.Ram s.PC)
  obtain ⟨va, la, s2, hta⟩ :=
    translate_total { s with PC := (s.PC + 1) % 65536 } _ hba
  obtain ⟨vb, lb, s3, htb⟩ := translate_total s2 _ hbb
  have hO2 : s2.O = s.O := (translate_frame hta).2.2.2.2.2.2.2.2.1
  have hO3 : s3.O = s2.O := (translate_frame htb).2.2.2.2.2.2.2.2.1
  cases hex : execute (decodeOpcode (s.Ram s.PC)).1 va vb s3 with
  | error msg =>
    rw [Step_unfold_panic hta htb hex]
    trivial
  | ok res =>
    obtain ⟨val, s4⟩ := res
    have hO4 : s4.O = s3.O :=
      (execute_inv hex).2.2.2.2.2.2.2.2.2.2.2.2 hins
    rw [Step_unfold hta htb hex]
    by_cases hle : (decodeOpcode (s.Ram s.PC)).1 ≤ 11
    · exact storePhase_O (translate_lval_not_O hta (ha29 hle)) _ _ _ _ _ _ _
        (by rw [hO4, hO3, hO2])
    · unfold storePhase
      rw [if_neg (by omega)]
      show s4.O = s.O
      rw [hO4, hO3, hO2]

end DCPU

namespace DCPU

/-- Concrete-instance check of `C8_O_untouched`: executing `SET A, 1`
(word `0x8401`) from the zeroed state leaves `O = 0`. -/
theorem C8_witness : OPreserved (Step (initialState [0x8401] [])) 0 :=
  C8_O_untouched (initialState [0x8401] []) (Or.inl (by decide))
    (fun _ => by decide)

/-- **C8 (counterexample)**: `SET O, 1` (word `0x85D1`, opcode 1 with
operand `a` code 29) changes `O` from 0 to 1, so opcode 1 does not
always leave `O` untouched. -/
theorem C8_counterexample :
    (decodeOpcode 0x85D1).1 = 1 ∧ (decodeOpcode 0x85D1).2.1 = 29 ∧
    (initialState [0x85D1] []).O = 0 ∧
    oOf (Step (initialState [0x85D1] [])) = some 1 := by decide

/-- **C1**: the code's `wordCount` counts an extra word only for operand
code 31: for the word `0x7DE1` (operand codes 30 and 31, which both
consume an extra word in `translateOperand`) it returns 2 where the
specified count is 3, and for `0x0101` (operand code 16) it returns 1
where the specified count is 2.  Consequently a false conditional
(`IFE A, 1`, word `0x840C`) skipping over the three-word instruction
`0x7DE1 0x1000 0x0042` leaves `PC = 3` — inside the skipped
instruction — instead of `PC = 4` just past it. -/
theorem C1_wordCount_undercounts :
    wordCount 0x7DE1 = 2 ∧ specWordCount 0x7DE1 = 3 ∧
    wordCount 0x0101 = 1 ∧ specWordCount 0x0101 = 2 ∧
    (decodeOpcode 0x7DE1).2.1 = 30 ∧ (decodeOpcode 0x7DE1).2.2 = 31 ∧
    (decodeOpcode 0x840C).1 = 12 ∧
    pcOf (Step (initialState [0x840C, 0x7DE1, 0x1000, 0x0042] [])) = some 3 := by
  decide

/-- **C2**: `DIV` (word `0x8005`, `DIV A, 0`) and `MOD` (word `0x8006`,
`MOD A, 0`) with a zero divisor make `Step` abort with a Go runtime
panic (`a / b` and `a % b` with `b = 0`), instead of yielding
`val = 0, O = 0` as specified. -/
theorem C2_div_mod_zero_panics :
    Step (initialState [0x8005] []) = .panic "runtime error: integer divide by zero" ∧
    Step { initialState [0x8006] [] with A := 7 } =
      .panic "runtime error: integer divide by zero" ∧
    (decodeOpcode 0x8005).1 = 5 ∧ (decodeOpcode 0x8005).2.2 = 32 ∧
    (decodeOpcode 0x8006).1 = 6 ∧ (decodeOpcode 0x8006).2.2 = 32 :=
  ⟨rfl, rfl, rfl, rfl, rfl, rfl⟩

/-- The program of the spec's conditional-skip scenario, loaded at 0. -/
def C6st : State := initialState [0xC00D, 0x7DE1, 0x1000, 0x0042, 0x8401] []

/-- **C6 (counterexample)**: on the spec's program, the first instruction
does **not** skip (`PC = 1` after one step, not 4), the `SET [0x1000]`
executes (`RAM[0x1000] = 0x42`), and the final state has `A = 1` —
contradicting the claimed `RAM[0x1000] = 0, A = 0`. -/
theorem C6_counterexample :
    pcOf (Step C6st) = some 1 ∧
    decide (pcOf (Step C6st) = some 4) = false ∧
    ramAt (steps 3 C6st) 0x1000 = some 0x42 ∧
    aOf (steps 3 C6st) = some 1 ∧
    decide (ramAt (steps 3 C6st) 0x1000 = some 0 ∧
            aOf (steps 3 C6st) = some 0) = false := by
  decide

/-- **C6 (amended)**: word `0xC00D` decodes to `IFN A, 16` (opcode 13,
operand `a` code 0 = register A, operand `b` code 48 = literal 16), so
with the all-zero initial state the predicate compares 0 with 16 and no
skip occurs; the `SET [0x1000], 0x42` executes and the final word
`0x8401` is `SET A, 1`; after three steps `RAM[0x1000] = 0x42`, `A = 1`,
`O = 0`, `PC = 5`. -/
theorem C6_amended_run :
    decodeOpcode 0xC00D = (13, 0, 48) ∧
    pcOf (Step C6st) = some 1 ∧
    ramAt (steps 3 C6st) 0x1000 = some 0x42 ∧
    aOf (steps 3 C6st) = some 1 ∧
    oOf (steps 3 C6st) = some 0 ∧
    pcOf (steps 3 C6st) = some 5 := by
  decide

end DCPU

namespace DCPU

/-- A state about to execute `SET [0x1000], 1` with `[0x1000, 0x1010)`
protected. -/
def C10st : State := initialState [0x85E1, 0x1000] [⟨0x1000, 0x10⟩]

/-- The state `Step C10st` leaves behind at its protection fault. -/
def C10s4 : State := { C10st with PC := 2 }

/-- The protection error `Step C10st` returns. -/
def C10e : ProtectionError := ⟨0x1000, 0x85E1, 0, 1⟩

/-- Concrete-instance check of `C10_fault_no_rollback`: the faulting
`SET [0x1000], 1` leaves RAM unchanged but keeps `PC = 2` (fetch plus
one extra operand word) and `SP = 0`. -/
theorem C10_witness :
    C10s4.Ram = C10st.Ram ∧ C10s4.PC = 2 ∧ C10s4.SP = 0 :=
  ⟨(C10_fault_no_rollback C10st C10e C10s4 rfl).1,
   (C10_fault_no_rollback C10st C10e C10s4 rfl).2.2.1,
   (C10_fault_no_rollback C10st C10e C10s4 rfl).2.2.2.1⟩

end DCPU

namespace DCPU

/-- Observe the computed value and the resulting `O` of one execute. -/
def execOut (ins a b : Nat) (s : State) : Option (Nat × Nat) :=
  match execute ins a b s with
  | .ok (val, s') => some (val, s'.O)
  | .error _ => none

/-- **C4**: for all 16-bit operand values, after ADD (2), SUB (3),
MUL (4) or SHL (7) the pair `(O, val)` satisfies
`O * 2^16 + val = true_result (mod 2^32)` — the true result being
`a + b`, two's-complement `a - b`, `a * b`, `a * 2^b` — and SUB yields
`O = 0xFFFF` exactly when `a < b`, 0 otherwise. -/
theorem C4_overflow_pairs (a b : Nat) (s : State)
    (ha : a < 65536) (hb : b < 65536) :
    (∃ v o, execOut 2 a b s = some (v, o) ∧
       (o * 65536 + v) % 4294967296 = (a + b) % 4294967296) ∧
    (∃ v o, execOut 3 a b s = some (v, o) ∧
       (o * 65536 + v) % 4294967296 = (4294967296 + a - b) % 4294967296 ∧
       o = if a < b then 65535 else 0) ∧
    (∃ v o, execOut 4 a b s = some (v, o) ∧
       (o * 65536 + v) % 4294967296 = a * b % 4294967296) ∧
    (∃ v o, execOut 7 a b s = some (v, o) ∧
       (o * 65536 + v) % 4294967296 = a * 2 ^ b % 4294967296) := by
  have key : ∀ r : Nat, r < 4294967296 →
      (r / 65536 % 65536 * 65536 + r % 65536) % 4294967296 = r := by
    intro r hr
    omega
  refine ⟨⟨_, _, rfl, ?_⟩, ⟨_, _, rfl, ?_, ?_⟩, ⟨_, _, rfl, ?_⟩, ⟨_, _, rfl, ?_⟩⟩
  · exact key _ (Nat.mod_lt _ (by norm_num))
  · exact key _ (Nat.mod_lt _ (by norm_num))
  · dsimp only
    split <;> omega
  · exact key _ (Nat.mod_lt _ (by norm_num))
  · exact key _ (Nat.mod_lt _ (by norm_num))

/-- Concrete-instance check of `C4_overflow_pairs` at `a = 40000`,
`b = 50000` (SUB underflows there). -/
theorem C4_witness :
    (∃ v o, execOut 2 40000 50000 (initialState [] []) = some (v, o) ∧
       (o * 65536 + v) % 4294967296 = (40000 + 50000) % 4294967296) ∧
    (∃ v o, execOut 3 40000 50000 (initialState [] []) = some (v, o) ∧
       (o * 65536 + v) % 4294967296 = (4294967296 + 40000 - 50000) % 4294967296 ∧
       o = if 40000 < 50000 then 65535 else 0) ∧
    (∃ v o, execOut 4 40000 50000 (initialState [] []) = some (v, o) ∧
       (o * 65536 + v) % 4294967296 = 40000 * 50000 % 4294967296) ∧
    (∃ v o, execOut 7 40000 50000 (initialState [] []) = some (v, o) ∧
       (o * 65536 + v) % 4294967296 = 40000 * 2 ^ 50000 % 4294967296) :=
  C4_overflow_pairs 40000 50000 (initialState [] []) (by decide) (by decide)

end DCPU

namespace DCPU

theorem translate_effect (s : State) (op : Nat) (hop : op < 64) :
    ∃ v l s', translateOperand s op = .ok (v, l, s') ∧
      s'.PC = (if (16 ≤ op ∧ op ≤ 23) ∨ op = 30 ∨ op = 31
               then (s.PC + 1) % 65536 else s.PC) ∧
      s'.SP = spEffect op s.SP ∧
      (op = 24 → v = s.Ram s.SP ∧ s'.SP = (s.SP + 1) % 65536) ∧
      (op = 26 → l = some (.ram ((s.SP + 65535) % 65536)) ∧
                 s'.SP = (s.SP + 65535) % 65536) := by
  interval_cases op <;>
    refine ⟨_, _, _, rfl, ?_, ?_, ?_, ?_⟩ <;> simp [spEffect]

theorem cond_skip_sp_persists (s : State)
    (h14 : (decodeOpcode (s.Ram s.PC)).1 = 14)
    (ha : (decodeOpcode (s.Ram s.PC)).2.1 = 24)
    (hb : (decodeOpcode (s.Ram s.PC)).2.2 = 24)
    (hskip : s.Ram s.SP ≤ s.Ram ((s.SP + 1) % 65536)) :
    ∃ s', Step s = .ok s' ∧
      s'.SP = ((s.SP + 1) % 65536 + 1) % 65536 ∧
      s'.PC = ((s.PC + 1) % 65536 + wordCount (s.Ram ((s.PC + 1) % 65536))) % 65536 := by
  have hta : translateOperand { s with PC := (s.PC + 1) % 65536 }
      (decodeOpcode (s.Ram s.PC)).2.1 =
      .ok (s.Ram s.SP, some (.ram s.SP),
           { s with PC := (s.PC + 1) % 65536, SP := (s.SP + 1) % 65536 }) := by
    rw [ha]
    rfl
  have htb : translateOperand
      { s with PC := (s.PC + 1) % 65536, SP := (s.SP + 1) % 65536 }
      (decodeOpcode (s.Ram s.PC)).2.2 =
      .ok (s.Ram ((s.SP + 1) % 65536), some (.ram ((s.SP + 1) % 65536)),
           { s with PC := (s.PC + 1) % 65536,
                    SP := ((s.SP + 1) % 65536 + 1) % 65536 }) := by
    rw [hb]
    rfl
  have hex : execute (decodeOpcode (s.Ram s.PC)).1 (s.Ram s.SP)
      (s.Ram ((s.SP + 1) % 65536))
      { s with PC := (s.PC + 1) % 65536, SP := ((s.SP + 1) % 65536 + 1) % 65536 } =
      .ok (0, { s with
        PC := ((s.PC + 1) % 65536 + wordCount (s.Ram ((s.PC + 1) % 65536))) % 65536,
        SP := ((s.SP + 1) % 65536 + 1) % 65536 }) := by
    rw [h14]
    show Except.ok (0, if s.Ram s.SP ≤ s.Ram ((s.SP + 1) % 65536) then _ else _) = _
    rw [if_pos hskip]
  refine ⟨{ s with
      PC := ((s.PC + 1) % 65536 + wordCount (s.Ram ((s.PC + 1) % 65536))) % 65536,
      SP := ((s.SP + 1) % 65536 + 1) % 65536 }, ?_, rfl, rfl⟩
  rw [Step_unfold hta htb hex]
  unfold storePhase
  rw [h14, if_neg (by omega)]

theorem cond_skip_pc_persists (s : State)
    (h14 : (decodeOpcode (s.Ram s.PC)).1 = 14)
    (ha : (decodeOpcode (s.Ram s.PC)).2.1 = 31)
    (hb : (decodeOpcode (s.Ram s.PC)).2.2 = 31)
    (hskip : s.Ram ((s.PC + 1) % 65536) ≤ s.Ram (((s.PC + 1) % 65536 + 1) % 65536)) :
    ∃ s', Step s = .ok s' ∧
      s'.PC = ((s.PC + 3) + wordCount (s.Ram ((s.PC + 3) % 65536))) % 65536 := by
  have hta : translateOperand { s with PC := (s.PC + 1) % 65536 }
      (decodeOpcode (s.Ram s.PC)).2.1 =
      .ok (s.Ram ((s.PC + 1) % 65536), none,
           { s with PC := ((s.PC + 1) % 65536 + 1) % 65536 }) := by
    rw [ha]
    rfl
  have htb : translateOperand { s with PC := ((s.PC + 1) % 65536 + 1) % 65536 }
      (decodeOpcode (s.Ram s.PC)).2.2 =
      .ok (s.Ram (((s.PC + 1) % 65536 + 1) % 65536), none,
           { s with PC := (((s.PC + 1) % 65536 + 1) % 65536 + 1) % 65536 }) := by
    rw [hb]
    rfl
  have hex : execute (decodeOpcode (s.Ram s.PC)).1 (s.Ram ((s.PC + 1) % 65536))
      (s.Ram (((s.PC + 1) % 65536 + 1) % 65536))
      { s with PC := (((s.PC + 1) % 65536 + 1) % 65536 + 1) % 65536 } =
      .ok (0, { s with
        PC := ((((s.PC + 1) % 65536 + 1) % 65536 + 1) % 65536 +
               wordCount (s.Ram ((((s.PC + 1) % 65536 + 1) % 65536 + 1) % 65536))) % 65536 }) := by
    rw [h14]
    show Except.ok (0, if s.Ram ((s.PC + 1) % 65536) ≤
        s.Ram (((s.PC + 1) % 65536 + 1) % 65536) then _ else _) = _
    rw [if_pos hskip]
  have harg : (((s.PC + 1) % 65536 + 1) % 65536 + 1) % 65536 = (s.PC + 3) % 65536 := by
    omega
  refine ⟨{ s with
      PC := ((((s.PC + 1) % 65536 + 1) % 65536 + 1) % 65536 +
             wordCount (s.Ram ((((s.PC + 1) % 65536 + 1) % 65536 + 1) % 65536))) % 65536 },
    ?_, ?_⟩
  · rw [Step_unfold hta htb hex]
    unfold storePhase
    rw [h14, if_neg (by omega)]
  · show ((((s.PC + 1) % 65536 + 1) % 65536 + 1) % 65536 +
        wordCount (s.Ram ((((s.PC + 1) % 65536 + 1) % 65536 + 1) % 65536))) % 65536 = _
    rw [harg]
    omega

end DCPU

namespace DCPU

/-- **C5**: (i) per-operand translation effects: every code below 64
translates successfully; codes 16-23, 30, 31 advance `PC` by exactly one
word and all others leave `PC` unmoved; POP (24) reads at the old `SP`
then increments it, PUSH (26) decrements `SP` first and targets the
decremented address; (ii)+(iii) these side effects are computed from the
current instruction's own operands, in order `a` then `b`, and persist
even when the instruction is a conditional whose skip is taken: an
`IFG POP, POP` that skips still ends with `SP + 2`, and an
`IFG next_word, next_word` that skips still advances `PC` over both of
its own extra words before adding the skip distance. -/
theorem C5_operand_side_effects :
    (∀ (s : State) (op : Nat), op < 64 →
       ∃ v l s', translateOperand s op = .ok (v, l, s') ∧
         s'.PC = (if (16 ≤ op ∧ op ≤ 23) ∨ op = 30 ∨ op = 31
                  then (s.PC + 1) % 65536 else s.PC) ∧
         s'.SP = spEffect op s.SP ∧
         (op = 24 → v = s.Ram s.SP ∧ s'.SP = (s.SP + 1) % 65536) ∧
         (op = 26 → l = some (.ram ((s.SP + 65535) % 65536)) ∧
                    s'.SP = (s.SP + 65535) % 65536)) ∧
    (∀ s : State, (decodeOpcode (s.Ram s.PC)).1 = 14 →
       (decodeOpcode (s.Ram s.PC)).2.1 = 24 →
       (decodeOpcode (s.Ram s.PC)).2.2 = 24 →
       s.Ram s.SP ≤ s.Ram ((s.SP + 1) % 65536) →
       ∃ s', Step s = .ok s' ∧
         s'.SP = ((s.SP + 1) % 65536 + 1) % 65536 ∧
         s'.PC = ((s.PC + 1) % 65536 +
                  wordCount (s.Ram ((s.PC + 1) % 65536))) % 65536) ∧
    (∀ s : State, (decodeOpcode (s.Ram s.PC)).1 = 14 →
       (decodeOpcode (s.Ram s.PC)).2.1 = 31 →
       (decodeOpcode (s.Ram s.PC)).2.2 = 31 →
       s.Ram ((s.PC + 1) % 65536) ≤ s.Ram (((s.PC + 1) % 65536 + 1) % 65536) →
       ∃ s', Step s = .ok s' ∧
         s'.PC = ((s.PC + 3) + wordCount (s.Ram ((s.PC + 3) % 65536))) % 65536) :=
  ⟨translate_effect, cond_skip_sp_persists, cond_skip_pc_persists⟩

/-- `IFG POP, POP` (word `0x618E`) about to run with `SP = 0x100`. -/
def C5st2 : State := { initialState [0x618E] [] with SP := 0x100 }

/-- `IFG 5, 7` via two literal next-words (`0x7DFE 0x0005 0x0007`). -/
def C5st3 : State := initialState [0x7DFE, 5, 7] []

/-- Concrete-instance check of `C5_operand_side_effects`. -/
theorem C5_witness :
    (∃ v l s', translateOperand (initialState [] []) 30 = .ok (v, l, s') ∧
       s'.PC = (if (16 ≤ 30 ∧ 30 ≤ 23) ∨ 30 = 30 ∨ 30 = 31
                then ((initialState [] []).PC + 1) % 65536
                else (initialState [] []).PC) ∧
       s'.SP = spEffect 30 (initialState [] []).SP ∧
       (30 = 24 → v = (initialState [] []).Ram (initialState [] []).SP ∧
                  s'.SP = ((initialState [] []).SP + 1) % 65536) ∧
       (30 = 26 → l = some (.ram (((initialState [] []).SP + 65535) % 65536)) ∧
                  s'.SP = ((initialState [] []).SP + 65535) % 65536)) ∧
    (∃ s', Step C5st2 = .ok s' ∧
       s'.SP = ((C5st2.SP + 1) % 65536 + 1) % 65536 ∧
       s'.PC = ((C5st2.PC + 1) % 65536 +
                wordCount (C5st2.Ram ((C5st2.PC + 1) % 65536))) % 65536) ∧
    (∃ s', Step C5st3 = .ok s' ∧
       s'.PC = ((C5st3.PC + 3) + wordCount (C5st3.Ram ((C5st3.PC + 3) % 65536))) % 65536) :=
  ⟨C5_operand_side_effects.1 (initialState [] []) 30 (by decide),
   C5_operand_side_effects.2.1 C5st2 (by decide) (by decide) (by decide) (by decide),
   C5_operand_side_effects.2.2 C5st3 (by decide) (by decide) (by decide) (by decide)⟩

end DCPU

namespace DCPU

/-- Reading back through POP immediately after a store to the pushed
location returns the stored value and bumps `SP` by one. -/
theorem translate24_write (t : State) (v a : Nat) (hsp : t.SP = a) :
    translateOperand (writeLval t (.ram a) v) 24 =
      .ok (v, some (.ram a),
        { writeLval t (.ram a) v with SP := (a + 1) % 65536 }) := by
  subst hsp
  have hv : (writeLval t (.ram t.SP) v).Ram ((writeLval t (.ram t.SP) v).SP) = v := by
    show Function.update t.Ram t.SP v t.SP = v
    simp
  calc translateOperand (writeLval t (.ram t.SP) v) 24
      = .ok ((writeLval t (.ram t.SP) v).Ram ((writeLval t (.ram t.SP) v).SP),
          some (.ram ((writeLval t (.ram t.SP) v).SP)),
          { writeLval t (.ram t.SP) v with
            SP := ((writeLval t (.ram t.SP) v).SP + 1) % 65536 }) := rfl
    _ = .ok (v, some (.ram t.SP),
          { writeLval t (.ram t.SP) v with SP := (t.SP + 1) % 65536 }) := by
        rw [hv]
        rfl

/-- **C7**: a PUSH translation (code 26) followed by a store of `v` to
the pushed location and a POP translation (code 24), with no intervening
stack operation, returns `v` and restores `SP` (wrapping modulo 2^16);
concretely, `SET PUSH, 0x1234; SET A, POP` from the zeroed state ends
with `A = 0x1234` and `SP = 0`. -/
theorem C7_push_pop :
    (∀ (s : State) (v : Nat), s.SP < 65536 →
       ∃ s1 s2 : State,
         translateOperand s 26 = .ok (s.Ram ((s.SP + 65535) % 65536),
           some (.ram ((s.SP + 65535) % 65536)), s1) ∧
         s1.SP = (s.SP + 65535) % 65536 ∧
         translateOperand (writeLval s1 (.ram ((s.SP + 65535) % 65536)) v) 24 =
           .ok (v, some (.ram ((s.SP + 65535) % 65536)), s2) ∧
         s2.SP = s.SP) ∧
    aOf (steps 2 (initialState [0x7DA1, 0x1234, 0x6001] [])) = some 0x1234 ∧
    spOf (steps 2 (initialState [0x7DA1, 0x1234, 0x6001] [])) = some 0 := by
  refine ⟨?_, by decide, by decide⟩
  intro s v hsp
  refine ⟨{ s with SP := (s.SP + 65535) % 65536 }, _, rfl, rfl,
    translate24_write { s with SP := (s.SP + 65535) % 65536 } v
      ((s.SP + 65535) % 65536) rfl, ?_⟩
  show ((s.SP + 65535) % 65536 + 1) % 65536 = s.SP
  omega

/-- Concrete-instance check of `C7_push_pop`'s general round trip at the
zeroed state with `v = 0x1234`. -/
theorem C7_witness :
    ∃ s1 s2 : State,
      translateOperand (initialState [] []) 26 =
        .ok ((initialState [] []).Ram (((initialState [] []).SP + 65535) % 65536),
          some (.ram (((initialState [] []).SP + 65535) % 65536)), s1) ∧
      s1.SP = ((initialState [] []).SP + 65535) % 65536 ∧
      translateOperand (writeLval s1
          (.ram (((initialState [] []).SP + 65535) % 65536)) 0x1234) 24 =
        .ok (0x1234, some (.ram (((initialState [] []).SP + 65535) % 65536)), s2) ∧
      s2.SP = (initialState [] []).SP :=
  C7_push_pop.1 (initialState [] []) 0x1234 (by decide)

end DCPU

namespace DCPU

/-- Whether a step result is one of the two out-of-bounds programmer
panics (as opposed to normal completion, a protection fault, or the
divide-by-zero runtime panic). -/
def oobPanic : StepResult → Bool
  | .panic msg => msg == "Out of bounds opcode" || msg == "Out of bounds operand"
  | _ => false

/-- The only message `execute` can fail with, for a decoded opcode, is
the divide-by-zero runtime panic. -/
theorem execute_err {ins a b : Nat} {s : State} {msg : String}
    (hins : ins < 16) (h : execute ins a b s = .error msg) :
    msg = "runtime error: integer divide by zero" := by
  unfold execute at h
  split at h <;>
    first
      | (simp only [imp_false] at *; omega)
      | cases h
      | (split at h <;> cases h <;> rfl)

/-- The store phase never panics. -/
theorem storePhase_not_panic (opcode va vb val ins : Nat) (la : Option Lval)
    (s4 : State) :
    oobPanic (storePhase opcode va vb val la s4 ins) = false := by
  unfold storePhase
  split
  · rcases la with _ | l
    · rfl
    · cases l with
      | reg r => rfl
      | ram idx =>
        show oobPanic (if protCheck s4.Protected idx then
            StepResult.fault ⟨idx, opcode, va, vb⟩ s4
          else StepResult.ok (writeLval s4 (.ram idx) val)) = false
        split <;> rfl
  · rfl

/-- **C9**: decoding any 16-bit word yields an opcode in 0..15 and
operand codes in 0..63, so the `Out of bounds opcode` panic branch of
`Step` and the `Out of bounds operand` panic branch of
`translateOperand` are unreachable: no `Step`, from any state, ever
raises either panic. -/
theorem C9_decode_in_bounds :
    (∀ w : Nat, (decodeOpcode w).1 ≤ 15 ∧ (decodeOpcode w).2.1 ≤ 63 ∧
       (decodeOpcode w).2.2 ≤ 63) ∧
    (∀ s : State, oobPanic (Step s) = false) := by
  constructor
  · intro w
    obtain ⟨h1, h2, h3⟩ := decode_bounds w
    exact ⟨by omega, by omega, by omega⟩
  · intro s
    obtain ⟨hop, hba, hbb⟩ := decode_bounds (s.Ram s.PC)
    obtain ⟨va, la, s2, hta⟩ :=
      translate_total { s with PC := (s.PC + 1) % 65536 } _ hba
    obtain ⟨vb, lb, s3, htb⟩ := translate_total s2 _ hbb
    cases hex : execute (decodeOpcode (s.Ram s.PC)).1 va vb s3 with
    | error msg =>
      rw [Step_unfold_panic hta htb hex]
      rw [execute_err hop hex]
      rfl
    | ok res =>
      obtain ⟨val, s4⟩ := res
      rw [Step_unfold hta htb hex]
      exact storePhase_not_panic _ _ _ _ _ _ _

end DCPU

namespace DCPU

/-- **C3 (amended)**: for an instruction with opcode 1..11 whose
operand-`a` target resolves to a backing-RAM address lying in a
Protected region (the protected list being sorted by `Start`, the spec's
invariant), and whose execute phase completes (opcode is not DIV/MOD
with a zero operand `b`, which panics first — see C2), `Step` returns a
`ProtectionError` carrying that address, the instruction word and the
two translated operand values, and performs no store: RAM is unchanged.
Reads never consult the protected list: operand translation succeeds
from any state for every code below 64. -/
theorem C3_protected_store_faults (s s2 s3 s4 : State)
    (addr va vb val : Nat) (lb : Option Lval)
    (hins : 1 ≤ (decodeOpcode (s.Ram s.PC)).1 ∧ (decodeOpcode (s.Ram s.PC)).1 ≤ 11)
    (hta : translateOperand { s with PC := (s.PC + 1) % 65536 }
            (decodeOpcode (s.Ram s.PC)).2.1 = .ok (va, some (.ram addr), s2))
    (htb : translateOperand s2 (decodeOpcode (s.Ram s.PC)).2.2 = .ok (vb, lb, s3))
    (hex : execute (decodeOpcode (s.Ram s.PC)).1 va vb s3 = .ok (val, s4))
    (hsorted : s.Protected.Pairwise (fun r1 r2 => r1.Start ≤ r2.Start))
    (hmem : ∃ r ∈ s.Protected, r.Contains addr = true) :
    Step s = .fault ⟨addr, s.Ram s.PC, va, vb⟩ s4 ∧
    s4.Ram = s.Ram ∧
    (∀ (t : State) (op : Nat), op < 64 →
       ∃ v l t', translateOperand t op = .ok (v, l, t')) := by
  have hP2 : s2.Protected = s.Protected := (translate_frame hta).2.2.2.2.2.2.2.2.2.2
  have hP3 : s3.Protected = s2.Protected := (translate_frame htb).2.2.2.2.2.2.2.2.2.2
  have hP4 : s4.Protected = s3.Protected := (execute_inv hex).2.1
  have hR2 : s2.Ram = s.Ram := (translate_frame hta).2.2.2.2.2.2.2.2.2.1
  have hR3 : s3.Ram = s2.Ram := (translate_frame htb).2.2.2.2.2.2.2.2.2.1
  have hR4 : s4.Ram = s3.Ram := (execute_inv hex).1
  have hprot : protCheck s4.Protected addr = true := by
    rw [hP4, hP3, hP2]
    exact protCheck_of_mem hsorted hmem
  rw [Step_unfold hta htb hex]
  unfold storePhase
  rw [if_pos hins]
  refine ⟨?_, by rw [hR4, hR3, hR2], translate_total⟩
  show (if protCheck s4.Protected addr then
      StepResult.fault ⟨addr, s.Ram s.PC, va, vb⟩ s4
    else StepResult.ok (writeLval s4 (.ram addr) val)) = _
  rw [if_pos hprot]

/-- A state about to execute `SET [0x1000], 1` with `[0x1000, 0x1010)`
protected (the spec's protection-fault scenario). -/
def C3wst : State := initialState [0x85E1, 0x1000] [⟨0x1000, 0x10⟩]

/-- The machine state at `Step C3wst`'s protection fault. -/
def C3ws4 : State := { C3wst with PC := 2 }

/-- Concrete-instance check of `C3_protected_store_faults`: the spec's
protection-fault scenario returns `address = 0x1000` with the
instruction word and operand values, and leaves RAM unchanged. -/
theorem C3_witness :
    Step C3wst = .fault ⟨0x1000, 0x85E1, 0, 1⟩ C3ws4 ∧ C3ws4.Ram = C3wst.Ram :=
  ⟨(C3_protected_store_faults C3wst C3ws4 C3ws4 C3ws4 0x1000 0 1 1 none
      (by decide) rfl rfl rfl
      (by show List.Pairwise _ [(⟨0x1000, 0x10⟩ : Region)]; simp) (by decide)).1,
   (C3_protected_store_faults C3wst C3ws4 C3ws4 C3ws4 0x1000 0 1 1 none
      (by decide) rfl rfl rfl
      (by show List.Pairwise _ [(⟨0x1000, 0x10⟩ : Region)]; simp) (by decide)).2.1⟩

/-- A state about to execute `DIV [0x1000], 0` with `[0x1000, 0x1010)`
protected. -/
def C3cst : State := initialState [0x81E5, 0x1000] [⟨0x1000, 0x10⟩]

/-- **C3 (counterexample)**: an opcode in 1..11 (`DIV`, 5) whose
operand-`a` target is the protected address `0x1000` does **not**
return a ProtectionFault when operand `b` is zero: `Step` panics with
the divide-by-zero runtime error before reaching the store phase. -/
theorem C3_counterexample :
    (decodeOpcode 0x81E5).1 = 5 ∧
    (decodeOpcode 0x81E5).2.1 = 30 ∧
    C3cst.Protected = [⟨0x1000, 0x10⟩] ∧
    Region.Contains ⟨0x1000, 0x10⟩ 0x1000 = true ∧
    translateOperand { C3cst with PC := 1 } 30 =
      .ok (0, some (.ram 0x1000), { C3cst with PC := 2 }) ∧
    Step C3cst = .panic "runtime error: integer divide by zero" :=
  ⟨rfl, rfl, rfl, rfl, rfl, rfl⟩

end DCPU
